import Mathlib

/-!
Verification of the dmenv environment/lock-file subsystem.

The development shallowly embeds the two facade implementations of the
repository (`src/app.rs`, the legacy `App`, and `src/project.rs`, the
refined `Project`) over an explicit filesystem model.  A filesystem state
is the set of existing paths; a path is its list of components.  External
child-process invocations are recorded as a trace of events; whether an
invoked command succeeds is decided by an oracle `Ex : Event → Bool`
passed in.  Code of the repository that is not present under `src/`
(the `VenvRunner`, the `operations::venv` helpers, `FrozenDependency`
parsing and the lock `bump` operation) is modelled from the specification
and marked as such in its doc comment.
-/

namespace Dmenv

/-- A filesystem path, as its list of components. -/
abbrev FilePath := List String

/-- The filesystem model: the set of currently existing paths. -/
structure FsState where
  existing : List FilePath
deriving DecidableEq

/-- `path.exists()` in the model. -/
def pathExists (fs : FsState) (p : FilePath) : Bool :=
  p ∈ fs.existing

/-- Error taxonomy of the refined facade (`src/error.rs` is absent from the
sources; the variants are those constructed in `src/project.rs`, completed
from the specification taxonomy in §7). -/
inductive Error
  | MissingSetupPy
  | MissingLock (expectedPath : FilePath)
  | MissingVenv (path : FilePath)
  | PipUpgradeFailed
  | BinaryNotFound (path : FilePath)
  | VenvCreateFailed
  | CommandFailed (bin : String) (args : List String)
  | DependencyNotFound (name : String)
  | MalformedDependencyLine (line : String)
  | Other (message : String)
deriving DecidableEq

/-- Observable external effects: environment creation, child-process
invocation, full-file lock write, recursive delete, and `execv`. -/
inductive Event
  | create (venv : FilePath)
  | run (bin : String) (args : List String)
  | writeLock (path : FilePath)
  | removeAll (path : FilePath)
  | exec (bin : FilePath) (args : List String)
deriving DecidableEq

/-- Oracle deciding whether an external invocation succeeds. -/
abbrev Ex := Event → Bool

/-- State threaded through the stateful operations: the filesystem plus the
trace of external effects performed so far. -/
structure St where
  fs : FsState
  trace : List Event
deriving DecidableEq

/-- Sequencing for `St × Option ε` results: the first failure aborts. -/
def andThen (r : St × Option ε) (k : St → St × Option ε) : St × Option ε :=
  match r with
  | (st, none) => k st
  | (st, some e) => (st, some e)

/-- Platform selector (`cfg(windows)` in the sources). -/
structure Platform where
  windows : Bool
deriving DecidableEq

/-- The binaries subdirectory of a virtualenv: `bin` on Unix, `Scripts` on
Windows (`src/app.rs` lines 203-209). -/
def binSubdir (pl : Platform) : String :=
  if pl.windows then "Scripts" else "bin"

/-- The platform executable suffix: empty on Unix, `.exe` on Windows
(`src/app.rs` lines 205-211). -/
def exeSuffix (pl : Platform) : String :=
  if pl.windows then ".exe" else ""

/-! ### String utilities

Rust `str::lines` and the freeze-line grammar, written with structural
recursion over `List Char` so that every definition evaluates by `rfl`. -/

/-- Split a character list at every occurrence of `sep` (like Rust
`str::split`). -/
def splitChar (sep : Char) : List Char → List (List Char)
  | [] => [[]]
  | c :: cs =>
    match splitChar sep cs with
    | [] => [[]]
    | l :: ls => if c = sep then [] :: l :: ls else (c :: l) :: ls

/-- Drop one trailing carriage return, as Rust `str::lines` does. -/
def stripCR (l : List Char) : List Char :=
  if l.getLast? = some '\r' then l.dropLast else l

/-- Rust `str::lines`: split on `\n`, treating it as a terminator (no empty
final line), stripping a trailing `\r` from each line. -/
def rustLines (s : String) : List String :=
  if s.data = [] then []
  else
    let parts := splitChar '\n' s.data
    let parts := if parts.getLast? = some [] then parts.dropLast else parts
    parts.map (fun l => String.mk (stripCR l))

/-- Split a character list at the first occurrence of the separator `sep`,
returning the parts before and after it; `none` if `sep` does not occur. -/
def breakOn (sep : List Char) : List Char → Option (List Char × List Char)
  | [] => if sep.isEmpty then some ([], []) else none
  | c :: rest =>
    if sep.isPrefixOf (c :: rest) then some ([], (c :: rest).drop sep.length)
    else
      match breakOn sep rest with
      | some (pre, post) => some (c :: pre, post)
      | none => none

/-! ### Dependency records -/

/-- A single pinned dependency, realizing the DependencyRecord of the
specification (§3): registry pins carry a version, source pins a source
reference. -/
structure FrozenDependency where
  name : String
  version : String
  source_ref : Option String
deriving DecidableEq

/-- Modelled from the spec: `FrozenDependency::from_string`
(`src/dependencies.rs` is absent from the sources).  §4.3: recognizes the
grammars `name==version` (registry pin) and `name @ <ref>` (source pin);
a line matching neither fails with `MalformedDependencyLine{line}`. -/
def FrozenDependency.from_string (line : String) : Except Error FrozenDependency :=
  match breakOn ['=', '='] line.data with
  | some (n, v) => .ok ⟨String.mk n, String.mk v, none⟩
  | none =>
    match breakOn [' ', '@', ' '] line.data with
    | some (n, r) => .ok ⟨String.mk n, "", some (String.mk r)⟩
    | none => .error (.MalformedDependencyLine line)

/-- `Project::get_frozen_deps` (`src/project.rs` lines 313-328): collect
every `pip freeze` line into a `FrozenDependency`, then filter out
`pkg-resources` once, centrally, after all lines are parsed. -/
def get_frozen_deps (freezeOutput : String) : Except Error (List FrozenDependency) :=
  match (rustLines freezeOutput).mapM FrozenDependency.from_string with
  | .error e => .error e
  | .ok deps => .ok (deps.filter (fun x => x.name ≠ "pkg-resources"))

/-- Modelled from the spec: the lock `bump` operation
(`operations::bump_in_lock` and the `Lock` struct, `src/operations.rs`,
are absent from the sources).  §4.4: locates the record with matching name
(case-sensitive exact match), replaces its version (or attaches a source
reference if `use_source_ref` is set), preserving the position and all
other records unchanged; fails with `DependencyNotFound{name}` if no
record matches; never inserts a new dependency. -/
def bump (records : List FrozenDependency) (name version : String)
    (git : Bool) : Except Error (List FrozenDependency) :=
  if records.any (fun r => r.name = name) then
    .ok (records.map (fun r =>
      if r.name = name then
        if git then { r with source_ref := some version }
        else { r with version := version, source_ref := none }
      else r))
  else .error (.DependencyNotFound name)

/-! ### The refined facade (`src/project.rs`) -/

/-- The resolved paths of a project (`src/paths.rs` is absent; the fields
are those read by `src/project.rs`, per the specification data model §3). -/
structure Paths where
  project : FilePath
  venv : FilePath
  lock : FilePath
  setup_py : FilePath
deriving DecidableEq

/-- Project settings (the two fields read by the core, spec §3). -/
structure Settings where
  production : Bool
  system_site_packages : Bool
deriving DecidableEq

/-- The path of an executable inside the virtualenv: the venv path joined
with the platform binaries subdirectory and the name carrying the platform
suffix. -/
def venvBinPath (pl : Platform) (venv : FilePath) (name : String) : FilePath :=
  venv ++ [binSubdir pl, name ++ exeSuffix pl]

/-- Modelled from the spec: `VenvRunner::run` (`src/run.rs` is absent from
the sources).  It resolves the executable per §4.2 `resolve_binary` —
joining the venv path with the platform binary subdirectory and suffix and
failing with `BinaryNotFound{path}` when that path does not exist — and
then invokes the child process per the §6 CommandRunner interface,
surfacing a non-zero exit status as a failure. -/
def venvRun (ex : Ex) (pl : Platform) (venv : FilePath) (bin : String)
    (args : List String) (st : St) : St × Option Error :=
  let binPath := venvBinPath pl venv bin
  if pathExists st.fs binPath then
    let ev := Event.run bin args
    let st' := { st with trace := st.trace ++ [ev] }
    (st', if ex ev then none else some (.CommandFailed bin args))
  else (st, some (.BinaryNotFound binPath))

/-- Modelled from the spec: `operations::venv::expect`
(`src/operations.rs` is absent from the sources).  §4.2: fails with
`MissingEnvironment{path}` if `paths.venv` does not exist. -/
def venvExpect (venv : FilePath) (st : St) : St × Option Error :=
  if pathExists st.fs venv then (st, none) else (st, some (.MissingVenv venv))

/-- Modelled from the spec: `operations::venv::create`
(`src/operations.rs` is absent from the sources).  §4.2: creates the
parent directory tree, then invokes the external environment-creation
facility with the configured interpreter; fails with
`EnvironmentCreationFailed` if the child process exits non-zero. -/
def venvOpCreate (ex : Ex) (venv : FilePath) (st : St) : St × Option Error :=
  let ev := Event.create venv
  let st' := { st with trace := st.trace ++ [ev] }
  if ex ev then ({ st' with fs := ⟨venv :: st.fs.existing⟩ }, none)
  else (st', some .VenvCreateFailed)

/-- Modelled from the spec: `operations::venv::clean`
(`src/operations.rs` is absent from the sources).  §4.2: no-op (success)
if absent; otherwise recursively deletes the environment directory. -/
def removeDirAll (fs : FsState) (p : FilePath) : FsState :=
  ⟨fs.existing.filter (fun q => ¬ p.isPrefixOf q)⟩

namespace Project

/-- `Project::ensure_venv` (`src/project.rs` lines 90-100): reuse the
virtualenv when it exists, otherwise create it. -/
def ensure_venv (ex : Ex) (paths : Paths) (st : St) : St × Option Error :=
  if pathExists st.fs paths.venv then (st, none)
  else venvOpCreate ex paths.venv st

/-- `Project::expect_venv` (`src/project.rs` lines 117-119). -/
def expect_venv (paths : Paths) (st : St) : St × Option Error :=
  venvExpect paths.venv st

/-- `Project::upgrade_pip` (`src/project.rs` lines 163-169): any failure of
the upgrade command is mapped to `PipUpgradeFailed`. -/
def upgrade_pip (ex : Ex) (pl : Platform) (paths : Paths) (st : St) :
    St × Option Error :=
  let r := venvRun ex pl paths.venv "python"
    ["-m", "pip", "install", "pip", "--upgrade"] st
  (r.1, r.2.map (fun _ => Error.PipUpgradeFailed))

/-- `Project::install_editable` (`src/project.rs` lines 275-291): the extra
is `.[prod]` when `settings.production` is set and `.[dev]` otherwise. -/
def install_editable (ex : Ex) (pl : Platform) (settings : Settings)
    (paths : Paths) (st : St) : St × Option Error :=
  venvRun ex pl paths.venv "python"
    ["-m", "pip", "install", "--editable",
      if settings.production then ".[prod]" else ".[dev]"] st

/-- `Project::run_pip_freeze` (`src/project.rs` lines 330-337): capture the
freeze output; the output text itself is supplied by the oracle caller. -/
def run_pip_freeze (ex : Ex) (pl : Platform) (paths : Paths) (st : St) :
    St × Option Error :=
  venvRun ex pl paths.venv "pip"
    ["freeze", "--exclude-editable", "--all", "--local"] st

/-- `Project::lock_dependencies` (`src/project.rs` lines 294-299), with
`operations::lock_dependencies` modelled from the spec (§4.3 serialize:
writing is always a full-file replace): freeze, parse and filter, then
write the lock in one replace. -/
def lock_dependencies (ex : Ex) (pl : Platform) (freezeOutput : String)
    (paths : Paths) (st : St) : St × Option Error :=
  andThen (run_pip_freeze ex pl paths st) fun st1 =>
    match get_frozen_deps freezeOutput with
    | .error e => (st1, some e)
    | .ok _ =>
      ({ fs := ⟨paths.lock :: st1.fs.existing⟩,
         trace := st1.trace ++ [Event.writeLock paths.lock] }, none)

/-- `Project::lock` (`src/project.rs` lines 186-195): setup descriptor
check, ensure, pip upgrade, editable install, then freeze-and-write. -/
def lock (ex : Ex) (pl : Platform) (freezeOutput : String)
    (settings : Settings) (paths : Paths) (st : St) : St × Option Error :=
  if pathExists st.fs paths.setup_py then
    andThen (ensure_venv ex paths st) fun st1 =>
    andThen (upgrade_pip ex pl paths st1) fun st2 =>
    andThen (install_editable ex pl settings paths st2) fun st3 =>
    lock_dependencies ex pl freezeOutput paths st3
  else (st, some .MissingSetupPy)

/-- `Project::install_from_lock` (`src/project.rs` lines 143-161): pip
install from the relative lock file name (its last path component). -/
def install_from_lock (ex : Ex) (pl : Platform) (paths : Paths) (st : St) :
    St × Option Error :=
  venvRun ex pl paths.venv "python"
    ["-m", "pip", "install", "--requirement", paths.lock.getLastD ""] st

/-- `Project::develop` (`src/project.rs` lines 71-79). -/
def develop (ex : Ex) (pl : Platform) (paths : Paths) (st : St) :
    St × Option Error :=
  if pathExists st.fs paths.setup_py then
    venvRun ex pl paths.venv "python" ["setup.py", "develop", "--no-deps"] st
  else (st, some .MissingSetupPy)

/-- `PostInstallAction` (`src/project.rs` lines 31-34). -/
inductive PostInstallAction
  | RunSetupPyDevelop
  | None
deriving DecidableEq

/-- `Project::install` (`src/project.rs` lines 124-141): the lock-file
existence check comes first; only then is the virtualenv ensured. -/
def install (ex : Ex) (pl : Platform) (action : PostInstallAction)
    (paths : Paths) (st : St) : St × Option Error :=
  if pathExists st.fs paths.lock then
    andThen (ensure_venv ex paths st) fun st1 =>
    andThen (install_from_lock ex pl paths st1) fun st2 =>
    match action with
    | .RunSetupPyDevelop => develop ex pl paths st2
    | .None => (st2, none)
  else (st, some (.MissingLock paths.lock))

/-- `Project::show_deps` (`src/project.rs` lines 249-251): calls the venv
runner directly, with no `expect_venv` check. -/
def show_deps (ex : Ex) (pl : Platform) (paths : Paths) (st : St) :
    St × Option Error :=
  venvRun ex pl paths.venv "pip" ["list"] st

/-- `Project::show_outdated` (`src/project.rs` lines 270-273): calls the
venv runner directly, with no `expect_venv` check. -/
def show_outdated (ex : Ex) (pl : Platform) (paths : Paths) (st : St) :
    St × Option Error :=
  venvRun ex pl paths.venv "pip" ["list", "--outdated", "--format", "columns"] st

/-- `Project::run`, Unix branch (`src/project.rs` lines 209-231): expect
the venv, resolve `args[0]` and `execv` it.  The outer `Option` is `none`
exactly when the source panics: the read of `args[0]` on an empty argument
vector is an out-of-bounds index. -/
def runProc (_ex : Ex) (pl : Platform) (paths : Paths) (args : List String)
    (st : St) : Option (St × Option Error) :=
  match expect_venv paths st with
  | (st1, some e) => some (st1, some e)
  | (st1, none) =>
    match args with
    | [] => none
    | a :: rest =>
      let binPath := venvBinPath pl paths.venv a
      if pathExists st1.fs binPath then
        some ({ st1 with trace := st1.trace ++ [Event.exec binPath (a :: rest)] },
          none)
      else some (st1, some (.BinaryNotFound binPath))

/-- `Project::run_no_exec` (`src/project.rs` lines 239-244): expect the
venv, then run `args[0]` on `args[1..]` as a child process.  The outer
`Option` is `none` exactly when the source panics on `args[0]`. -/
def run_no_exec (ex : Ex) (pl : Platform) (paths : Paths)
    (args : List String) (st : St) : Option (St × Option Error) :=
  match expect_venv paths st with
  | (st1, some e) => some (st1, some e)
  | (st1, none) =>
    match args with
    | [] => none
    | cmd :: rest => some (venvRun ex pl paths.venv cmd rest st1)

/-- `Project::clean` (`src/project.rs` lines 65-67), via the spec-modelled
`operations::venv::clean`: no-op when absent, recursive delete otherwise. -/
def clean (paths : Paths) (st : St) : St × Option Error :=
  if pathExists st.fs paths.venv then
    ({ fs := removeDirAll st.fs paths.venv,
       trace := st.trace ++ [Event.removeAll paths.venv] }, none)
  else (st, none)

end Project

/-! ### The legacy facade (`src/app.rs`) -/

/-- The `App` struct (`src/app.rs` lines 7-12). -/
structure App where
  venv_path : FilePath
  requirements_lock_path : FilePath
  setup_py_path : FilePath
  python_binary : String
deriving DecidableEq

/-- The legacy facade builds every error with `Error::new(message)`; each
constructor here stands for one of its distinct message formats, carrying
the data interpolated into it. -/
inductive AppError
  | venvDoesNotExist (venv : FilePath)
  | cannotRun (path : FilePath)
  | lockMissing (path : FilePath)
  | createVenvFailed
  | commandFailed
  | noParent
deriving DecidableEq

namespace App

/-- `App::get_path_in_venv` (`src/app.rs` lines 195-222): fail if the venv
itself is absent; otherwise join the platform binaries subdirectory and
the suffixed name, and fail naming that joined path when it is absent. -/
def get_path_in_venv (pl : Platform) (app : App) (fs : FsState)
    (name : String) : Except AppError FilePath :=
  if pathExists fs app.venv_path then
    let path := venvBinPath pl app.venv_path name
    if pathExists fs path then .ok path
    else .error (.cannotRun path)
  else .error (.venvDoesNotExist app.venv_path)

/-- `App::run_venv_cmd` (`src/app.rs` lines 184-193). -/
def run_venv_cmd (ex : Ex) (pl : Platform) (app : App) (name : String)
    (args : List String) (st : St) : St × Option AppError :=
  match get_path_in_venv pl app st.fs name with
  | .error e => (st, some e)
  | .ok _ =>
    let ev := Event.run name args
    let st' := { st with trace := st.trace ++ [ev] }
    (st', if ex ev then none else some .commandFailed)

/-- `App::create_venv` (`src/app.rs` lines 115-138): parent check, create
the parent tree, then run `python -m venv <path>` as a child process. -/
def create_venv (ex : Ex) (app : App) (st : St) : St × Option AppError :=
  if app.venv_path.isEmpty then (st, some .noParent)
  else
    let ev := Event.run app.python_binary ["-m", "venv"]
    let st' := { st with trace := st.trace ++ [ev] }
    if ex ev then ({ st' with fs := ⟨app.venv_path :: st.fs.existing⟩ }, none)
    else (st', some .createVenvFailed)

/-- `App::ensure_venv` (`src/app.rs` lines 102-113). -/
def ensure_venv (ex : Ex) (app : App) (st : St) : St × Option AppError :=
  if pathExists st.fs app.venv_path then (st, none)
  else create_venv ex app st

/-- `App::install_from_lock` (`src/app.rs` lines 158-170). -/
def install_from_lock (ex : Ex) (pl : Platform) (app : App) (st : St) :
    St × Option AppError :=
  run_venv_cmd ex pl app "python"
    ["-m", "pip", "install", "--requirement",
      String.intercalate "/" app.requirements_lock_path, "--editable", ".[dev]"]
    st

/-- `App::install` (`src/app.rs` lines 51-62): the virtualenv is ensured
(and possibly created) before the lock-file existence check. -/
def install (ex : Ex) (pl : Platform) (app : App) (st : St) :
    St × Option AppError :=
  andThen (ensure_venv ex app st) fun st1 =>
  if pathExists st1.fs app.requirements_lock_path then
    install_from_lock ex pl app st1
  else (st1, some (.lockMissing app.requirements_lock_path))

/-- `App::run` (`src/app.rs` lines 64-68): `args[0]` is read first, before
anything else; the outer `Option` is `none` exactly when that read is an
out-of-bounds index (the source panics). -/
def runProc (ex : Ex) (pl : Platform) (app : App) (args : List String)
    (st : St) : Option (St × Option AppError) :=
  match args with
  | [] => none
  | cmd :: rest => some (run_venv_cmd ex pl app cmd rest st)

/-- `App::clean` (`src/app.rs` lines 39-49): success without any effect if
the venv is absent; otherwise `remove_dir_all` on exactly the venv path. -/
def clean (app : App) (st : St) : St × Option AppError :=
  if pathExists st.fs app.venv_path then
    ({ fs := removeDirAll st.fs app.venv_path,
       trace := st.trace ++ [Event.removeAll app.venv_path] }, none)
  else (st, none)

end App

/-! ### Concrete fixtures -/

/-- Unix platform. -/
def pl0 : Platform := ⟨false⟩

/-- Oracle under which every external invocation succeeds. -/
def exAll : Ex := fun _ => true

/-- Example resolved paths of a project rooted at `proj`. -/
def paths0 : Paths :=
  ⟨["proj"], ["proj", ".venv", "env"], ["proj", "requirements.lock"],
    ["proj", "setup.py"]⟩

/-- The legacy facade over the same project. -/
def app0 : App :=
  ⟨["proj", ".venv", "env"], ["proj", "requirements.lock"],
    ["proj", "setup.py"], "python3"⟩

/-- Project with only its descriptor: no lock, no virtualenv. -/
def stSetupOnly : St := ⟨⟨[["proj"], ["proj", "setup.py"]]⟩, []⟩

/-- Project with descriptor and lock but no virtualenv. -/
def stNoVenv : St :=
  ⟨⟨[["proj"], ["proj", "setup.py"], ["proj", "requirements.lock"]]⟩, []⟩

/-- Fully built project: descriptor, lock, virtualenv with its `python`
and `pip` binaries. -/
def stFull : St :=
  ⟨⟨[["proj"], ["proj", "setup.py"], ["proj", "requirements.lock"],
      ["proj", ".venv", "env"], ["proj", ".venv", "env", "bin", "python"],
      ["proj", ".venv", "env", "bin", "pip"]]⟩, []⟩

/-! ### Helper lemmas -/

@[simp] theorem andThen_ok (st : St) (k : St → St × Option ε) :
    andThen (st, none) k = k st := rfl

@[simp] theorem andThen_err (st : St) (e : ε) (k : St → St × Option ε) :
    andThen (st, some e) k = (st, some e) := rfl

@[simp] theorem pathExists_iff (fs : FsState) (p : FilePath) :
    pathExists fs p = true ↔ p ∈ fs.existing := by
  simp [pathExists]

@[simp] theorem pathExists_eq_false_iff (fs : FsState) (p : FilePath) :
    pathExists fs p = false ↔ p ∉ fs.existing := by
  simp [pathExists]

theorem pathExists_cons_self (l : List FilePath) (p : FilePath) :
    pathExists ⟨p :: l⟩ p = true := by
  simp

/-! ### Claim theorems -/

/-- C3: for every project state in which the lock file does not exist,
`Project::install` fails with `MissingLock` naming the expected lock path
and leaves the state (filesystem and trace) unchanged — in particular it
does not create or modify the virtualenv. -/
theorem install_missing_lock (ex : Ex) (pl : Platform)
    (action : Project.PostInstallAction) (paths : Paths) (st : St)
    (h : pathExists st.fs paths.lock = false) :
    Project.install ex pl action paths st
      = (st, some (Error.MissingLock paths.lock)) := by
  simp [Project.install, h]

/-- Witness for C3 at a concrete project with a descriptor but no lock. -/
theorem install_missing_lock_w :
    Project.install exAll pl0 Project.PostInstallAction.None paths0 stSetupOnly
      = (stSetupOnly, some (Error.MissingLock ["proj", "requirements.lock"])) :=
  install_missing_lock exAll pl0 Project.PostInstallAction.None paths0
    stSetupOnly (by decide)

/-- C1: at a concrete project state whose virtualenv does not exist,
`show_deps` and `show_outdated` do not perform the `expect_venv` check the
code comment on `expect_venv` prescribes: they fail with `BinaryNotFound`
naming `<venv>/bin/pip` (still without any child-process invocation — the
returned state is unchanged), while `run` alone fails with the uniform
`MissingEnvironment` error, contrary to the claim that all three do. -/
theorem show_deps_missing_env_divergence :
    Project.show_deps exAll pl0 paths0 stNoVenv
      = (stNoVenv,
          some (Error.BinaryNotFound ["proj", ".venv", "env", "bin", "pip"])) ∧
    Project.show_outdated exAll pl0 paths0 stNoVenv
      = (stNoVenv,
          some (Error.BinaryNotFound ["proj", ".venv", "env", "bin", "pip"])) ∧
    Project.runProc exAll pl0 paths0 ["python"] stNoVenv
      = some (stNoVenv, some (Error.MissingVenv ["proj", ".venv", "env"])) ∧
    Error.BinaryNotFound ["proj", ".venv", "env", "bin", "pip"]
      ≠ Error.MissingVenv ["proj", ".venv", "env"] := by
  refine ⟨?_, ?_, ?_, by decide⟩ <;> decide

/-- C9: the two facades are not behaviourally equivalent.  On a concrete
project with a descriptor but neither lock nor virtualenv, both `install`
variants fail for the missing lock, but `App::install` has already created
the virtualenv (one child-process invocation, venv path now existing)
while `Project::install` returns with the state untouched. -/
theorem install_facades_differ :
    Project.install exAll pl0 Project.PostInstallAction.None paths0 stSetupOnly
      = (stSetupOnly, some (Error.MissingLock ["proj", "requirements.lock"])) ∧
    App.install exAll pl0 app0 stSetupOnly
      = (⟨⟨[["proj", ".venv", "env"], ["proj"], ["proj", "setup.py"]]⟩,
           [Event.run "python3" ["-m", "venv"]]⟩,
         some (AppError.lockMissing ["proj", "requirements.lock"])) ∧
    pathExists (App.install exAll pl0 app0 stSetupOnly).1.fs app0.venv_path
      = true ∧
    pathExists (Project.install exAll pl0 Project.PostInstallAction.None
        paths0 stSetupOnly).1.fs paths0.venv = false := by
  refine ⟨?_, ?_, ?_, ?_⟩ <;> decide

/-- C7: `ensure_venv` is idempotent.  When the virtualenv already exists
the call succeeds immediately with the state unchanged (so no
environment-creation invocation is recorded); and after any successful
`ensure_venv`, a second call succeeds with the state unchanged (so the
second call performs no creation call and both calls succeed). -/
theorem ensure_venv_idempotent (ex : Ex) (paths : Paths) (st : St) :
    (pathExists st.fs paths.venv = true →
      Project.ensure_venv ex paths st = (st, none)) ∧
    (∀ st', Project.ensure_venv ex paths st = (st', none) →
      Project.ensure_venv ex paths st' = (st', none)) := by
  constructor
  · intro h
    simp [Project.ensure_venv, h]
  · intro st' h
    by_cases hv : pathExists st.fs paths.venv
    · simp [Project.ensure_venv, hv] at h
      simp [Project.ensure_venv, hv, ← h]
    · simp only [Project.ensure_venv, hv, Bool.false_eq_true, if_false,
        venvOpCreate] at h
      by_cases hex : ex (Event.create paths.venv)
      · simp only [hex, if_true, Prod.mk.injEq] at h
        have hfs : st'.fs = ⟨paths.venv :: st.fs.existing⟩ := by
          rw [← h.1]
        have : pathExists st'.fs paths.venv = true := by
          rw [hfs]; exact pathExists_cons_self _ _
        simp [Project.ensure_venv, this]
      · simp [hex] at h

/-- Witness for C7: on the fully built project the virtualenv exists, so
`ensure_venv` is an immediate success and a repeated call stays one. -/
theorem ensure_venv_idempotent_w :
    Project.ensure_venv exAll paths0 stFull = (stFull, none) :=
  (ensure_venv_idempotent exAll paths0 stFull).2 stFull
    ((ensure_venv_idempotent exAll paths0 stFull).1 (by decide))

theorem clean_absent (app : App) (st : St)
    (h : pathExists st.fs app.venv_path = false) :
    App.clean app st = (st, none) := by
  simp [App.clean, h]

theorem pathExists_removeDirAll_self (fs : FsState) (p : FilePath) :
    pathExists (removeDirAll fs p) p = false := by
  have hp : p <+: p := ⟨[], List.append_nil p⟩
  simp [pathExists, removeDirAll, List.mem_filter, hp]

/-- C8: `clean` never fails; it is a no-op when the virtualenv is absent;
when present it removes exactly the paths below the virtualenv directory
(itself included) and nothing else; and `clean` composed with `clean`
always succeeds, the second call leaving the state of the first
unchanged. -/
theorem clean_spec (app : App) (st : St) :
    (App.clean app st).2 = none ∧
    (pathExists st.fs app.venv_path = false → App.clean app st = (st, none)) ∧
    (pathExists st.fs app.venv_path = true →
      ∀ q, q ∈ (App.clean app st).1.fs.existing ↔
        (q ∈ st.fs.existing ∧ ¬ app.venv_path <+: q)) ∧
    App.clean app (App.clean app st).1 = ((App.clean app st).1, none) := by
  by_cases hv : pathExists st.fs app.venv_path
  · have h1 : App.clean app st
        = ({ fs := removeDirAll st.fs app.venv_path,
             trace := st.trace ++ [Event.removeAll app.venv_path] }, none) := by
      simp [App.clean, hv]
    refine ⟨by rw [h1], by simp [hv], ?_, ?_⟩
    · intro _ q
      rw [h1]
      simp [removeDirAll, List.mem_filter]
    · rw [h1]
      exact clean_absent app _ (pathExists_removeDirAll_self _ _)
  · have hv' : pathExists st.fs app.venv_path = false := by
      simp only [Bool.not_eq_true] at hv
      exact hv
    have h1 : App.clean app st = (st, none) := clean_absent app st hv'
    refine ⟨by rw [h1], fun _ => h1, by simp [hv], ?_⟩
    rw [h1]
    exact clean_absent app st hv'

/-- Witness for C8 at concrete states: absent-venv no-op, and exact
removal on the fully built project. -/
theorem clean_spec_w :
    App.clean app0 stSetupOnly = (stSetupOnly, none) ∧
    (["proj", "setup.py"] ∈ (App.clean app0 stFull).1.fs.existing ↔
      (["proj", "setup.py"] ∈ stFull.fs.existing ∧
        ¬ app0.venv_path <+: ["proj", "setup.py"])) :=
  ⟨(clean_spec app0 stSetupOnly).2.1 (by decide),
   (clean_spec app0 stFull).2.2.1 (by decide) ["proj", "setup.py"]⟩

/-- C10: `App::run` reads `args[0]` unconditionally, and `Project::run`
and `Project::run_no_exec` read it as soon as the `expect_venv` check has
passed; none of the three checks for emptiness.  On the empty argument
vector the read is an out-of-bounds index — a panic (`none` in the
model), not a returned error — while on any non-empty vector all three
are total (they return a result, possibly an error). -/
theorem run_reads_first_arg (ex : Ex) (pl : Platform) (paths : Paths)
    (app : App) (st : St) :
    App.runProc ex pl app ([] : List String) st = none ∧
    (pathExists st.fs paths.venv = true →
      Project.runProc ex pl paths ([] : List String) st = none ∧
      Project.run_no_exec ex pl paths ([] : List String) st = none) ∧
    (∀ args : List String, args ≠ [] →
      (Project.runProc ex pl paths args st).isSome ∧
      (Project.run_no_exec ex pl paths args st).isSome ∧
      (App.runProc ex pl app args st).isSome) := by
  refine ⟨rfl, ?_, ?_⟩
  · intro h
    constructor <;>
      simp [Project.runProc, Project.run_no_exec, Project.expect_venv,
        venvExpect, h]
  · intro args hargs
    match args with
    | [] => exact absurd rfl hargs
    | a :: rest =>
      refine ⟨?_, ?_, by simp [App.runProc]⟩ <;>
        · simp only [Project.runProc, Project.run_no_exec, Project.expect_venv,
            venvExpect]
          by_cases h : pathExists st.fs paths.venv <;>
            simp [h] <;> split <;> simp

/-- Witness for C10: on the fully built project, the empty vector panics
in all three entry points; `["python"]` is handled by all three. -/
theorem run_reads_first_arg_w :
    Project.runProc exAll pl0 paths0 ([] : List String) stFull = none ∧
    Project.run_no_exec exAll pl0 paths0 ([] : List String) stFull = none ∧
    (Project.runProc exAll pl0 paths0 ["python"] stFull).isSome ∧
    (Project.run_no_exec exAll pl0 paths0 ["python"] stFull).isSome ∧
    (App.runProc exAll pl0 app0 ["python"] stFull).isSome :=
  ⟨((run_reads_first_arg exAll pl0 paths0 app0 stFull).2.1 (by decide)).1,
   ((run_reads_first_arg exAll pl0 paths0 app0 stFull).2.1 (by decide)).2,
   ((run_reads_first_arg exAll pl0 paths0 app0 stFull).2.2 ["python"]
      (by decide)).1,
   ((run_reads_first_arg exAll pl0 paths0 app0 stFull).2.2 ["python"]
      (by decide)).2.1,
   ((run_reads_first_arg exAll pl0 paths0 app0 stFull).2.2 ["python"]
      (by decide)).2.2⟩

/-- C6 counterexample: the claim quantifies over every state, but when the
virtualenv directory itself is absent the joined binary path does not
exist either, and `get_path_in_venv` then fails naming the virtualenv
path (missing-environment form), not the joined binary path. -/
theorem resolve_binary_cex :
    App.get_path_in_venv pl0 app0 ⟨[]⟩ "python"
      = .error (.venvDoesNotExist ["proj", ".venv", "env"]) ∧
    pathExists ⟨[]⟩ (venvBinPath pl0 app0.venv_path "python") = false ∧
    AppError.venvDoesNotExist ["proj", ".venv", "env"]
      ≠ AppError.cannotRun (venvBinPath pl0 app0.venv_path "python") := by
  refine ⟨rfl, by decide, by decide⟩

/-- C6 (amended): provided the virtualenv directory exists,
`get_path_in_venv` joins the virtualenv path with the platform binaries
subdirectory (`bin` on Unix, `Scripts` on Windows) and the platform
executable suffix (empty or `.exe`); when the joined path exists it is
returned, and when it does not the operation fails with an error naming
exactly that joined path. -/
theorem resolve_binary_spec (pl : Platform) (app : App) (fs : FsState)
    (name : String) (hv : pathExists fs app.venv_path = true) :
    (pathExists fs
        (app.venv_path ++ [binSubdir pl, name ++ exeSuffix pl]) = true →
      App.get_path_in_venv pl app fs name
        = .ok (app.venv_path ++ [binSubdir pl, name ++ exeSuffix pl])) ∧
    (pathExists fs
        (app.venv_path ++ [binSubdir pl, name ++ exeSuffix pl]) = false →
      App.get_path_in_venv pl app fs name
        = .error (.cannotRun
            (app.venv_path ++ [binSubdir pl, name ++ exeSuffix pl]))) := by
  constructor <;> intro h <;>
    simp [App.get_path_in_venv, venvBinPath, hv, h]

/-- Witness for C6: on the fully built Unix project, `python` resolves to
`proj/.venv/env/bin/python`, and `nosuch` fails naming
`proj/.venv/env/bin/nosuch`. -/
theorem resolve_binary_spec_w :
    App.get_path_in_venv pl0 app0 stFull.fs "python"
      = .ok ["proj", ".venv", "env", "bin", "python"] ∧
    App.get_path_in_venv pl0 app0 stFull.fs "nosuch"
      = .error (.cannotRun ["proj", ".venv", "env", "bin", "nosuch"]) := by
  refine ⟨?_, ?_⟩
  · have h := (resolve_binary_spec pl0 app0 stFull.fs "python"
      (by decide)).1 (by decide)
    simpa using h
  · have h := (resolve_binary_spec pl0 app0 stFull.fs "nosuch"
      (by decide)).2 (by decide)
    simpa using h

/-- C2: `Project::lock` first requires the project descriptor: when
`setup.py` is absent it fails with `MissingSetupPy` leaving the state
untouched (no environment creation, no invocation).  Otherwise it
performs, in order, ensure-environment (an ensure failure aborts with the
creation event alone traced), installer upgrade (whose failure — here a
failed upgrade command, or even a missing `python` binary — is reported as
`PipUpgradeFailed`, aborting before the editable install), the editable
install of the project with extra `.[prod]` when `settings.production`
and `.[dev]` otherwise, then freeze and one full-replace lock write. -/
theorem lock_spec (ex : Ex) (pl : Platform) (fo : String)
    (settings : Settings) (paths : Paths) (st : St) :
    (pathExists st.fs paths.setup_py = false →
      Project.lock ex pl fo settings paths st
        = (st, some Error.MissingSetupPy)) ∧
    (pathExists st.fs paths.setup_py = true →
      (pathExists st.fs paths.venv = false →
        ex (Event.create paths.venv) = false →
        Project.lock ex pl fo settings paths st
          = ({ st with trace := st.trace ++ [Event.create paths.venv] },
             some Error.VenvCreateFailed)) ∧
      (pathExists st.fs paths.venv = true →
        (pathExists st.fs (venvBinPath pl paths.venv "python") = false →
          Project.lock ex pl fo settings paths st
            = (st, some Error.PipUpgradeFailed)) ∧
        (pathExists st.fs (venvBinPath pl paths.venv "python") = true →
          (ex (Event.run "python"
              ["-m", "pip", "install", "pip", "--upgrade"]) = false →
            Project.lock ex pl fo settings paths st
              = ({ st with trace := st.trace ++
                    [Event.run "python"
                      ["-m", "pip", "install", "pip", "--upgrade"]] },
                 some Error.PipUpgradeFailed)) ∧
          (ex (Event.run "python"
              ["-m", "pip", "install", "pip", "--upgrade"]) = true →
            ex (Event.run "python"
              ["-m", "pip", "install", "--editable",
                if settings.production then ".[prod]" else ".[dev]"]) = true →
            pathExists st.fs (venvBinPath pl paths.venv "pip") = true →
            ex (Event.run "pip"
              ["freeze", "--exclude-editable", "--all", "--local"]) = true →
            ∀ ds, get_frozen_deps fo = .ok ds →
            Project.lock ex pl fo settings paths st
              = ({ fs := ⟨paths.lock :: st.fs.existing⟩,
                   trace := st.trace ++
                     [Event.run "python"
                        ["-m", "pip", "install", "pip", "--upgrade"],
                      Event.run "python"
                        ["-m", "pip", "install", "--editable",
                          if settings.production then ".[prod]" else ".[dev]"],
                      Event.run "pip"
                        ["freeze", "--exclude-editable", "--all", "--local"],
                      Event.writeLock paths.lock] }, none))))) := by
  refine ⟨?_, ?_⟩
  · intro h
    simp [Project.lock, h]
  · intro hs
    refine ⟨?_, ?_⟩
    · intro hv hc
      simp [Project.lock, hs, Project.ensure_venv, hv, venvOpCreate, hc]
    · intro hv
      have hs' : paths.setup_py ∈ st.fs.existing := by simpa using hs
      have hv' : paths.venv ∈ st.fs.existing := by simpa using hv
      refine ⟨?_, ?_⟩
      · intro hpy
        have hpy' : venvBinPath pl paths.venv "python" ∉ st.fs.existing := by
          simpa using hpy
        simp [Project.lock, hs', Project.ensure_venv, hv',
          Project.upgrade_pip, venvRun, hpy']
      · intro hpy
        have hpy' : venvBinPath pl paths.venv "python" ∈ st.fs.existing := by
          simpa using hpy
        refine ⟨?_, ?_⟩
        · intro hup
          simp [Project.lock, hs', Project.ensure_venv, hv',
            Project.upgrade_pip, venvRun, hpy', hup]
        · intro hup hed hpip hfr ds hds
          have hpip' : venvBinPath pl paths.venv "pip" ∈ st.fs.existing := by
            simpa using hpip
          simp [Project.lock, hs', Project.ensure_venv, hv',
            Project.upgrade_pip, Project.install_editable,
            Project.lock_dependencies, Project.run_pip_freeze, venvRun,
            hpy', hup, hed, hpip', hfr, hds]

/-- Witness for C2: the fully built project, the all-success oracle and a
one-line freeze output exercise the success branch end to end; the
missing-descriptor branch is exercised on the bare state. -/
theorem lock_spec_w :
    Project.lock exAll pl0 "requests==2.25.0" ⟨false, false⟩ paths0
      ⟨⟨[["proj"]]⟩, []⟩ = (⟨⟨[["proj"]]⟩, []⟩, some Error.MissingSetupPy) ∧
    Project.lock exAll pl0 "requests==2.25.0" ⟨false, false⟩ paths0 stFull
      = ({ fs := ⟨["proj", "requirements.lock"] :: stFull.fs.existing⟩,
           trace :=
             [Event.run "python" ["-m", "pip", "install", "pip", "--upgrade"],
              Event.run "python"
                ["-m", "pip", "install", "--editable", ".[dev]"],
              Event.run "pip"
                ["freeze", "--exclude-editable", "--all", "--local"],
              Event.writeLock ["proj", "requirements.lock"]] }, none) :=
  ⟨(lock_spec exAll pl0 "requests==2.25.0" ⟨false, false⟩ paths0
      ⟨⟨[["proj"]]⟩, []⟩).1 (by decide),
   by
    have h := ((((lock_spec exAll pl0 "requests==2.25.0" ⟨false, false⟩ paths0
        stFull).2 (by decide)).2 (by decide)).2 (by decide)).2 rfl rfl
        (by decide) rfl [⟨"requests", "2.25.0", none⟩] (by rfl)
    simpa using h⟩

/-- C4: `bump` succeeds exactly when some record has the given name
(case-sensitive exact match), in which case the result has the same
length (never inserting), every record whose name differs is unchanged at
its position, and every record whose name matches has — at its original
position — only its version replaced (or a source reference attached when
the git flag is set); when no record matches it fails with
`DependencyNotFound{name}`. -/
theorem bump_spec (records : List FrozenDependency) (name version : String)
    (git : Bool) :
    ((∀ r ∈ records, r.name ≠ name) →
      bump records name version git
        = .error (.DependencyNotFound name)) ∧
    ((∃ r ∈ records, r.name = name) →
      ∃ result, bump records name version git = .ok result) ∧
    (∀ result, bump records name version git = .ok result →
      result.length = records.length ∧
      ∀ i (hi : i < records.length) (hi2 : i < result.length),
        result.get ⟨i, hi2⟩ =
          (if (records.get ⟨i, hi⟩).name = name then
            (if git then
              { records.get ⟨i, hi⟩ with source_ref := some version }
             else
              { records.get ⟨i, hi⟩ with
                  version := version, source_ref := none })
           else records.get ⟨i, hi⟩)) := by
  refine ⟨?_, ?_, ?_⟩
  · intro h
    have hany : records.any (fun r => r.name = name) = false := by
      simp only [List.any_eq_false, decide_eq_true_eq]
      exact h
    simp [bump, hany]
  · intro h
    have hany : records.any (fun r => r.name = name) = true := by
      simp only [List.any_eq_true, decide_eq_true_eq]
      exact h
    exact ⟨records.map (fun r =>
        if r.name = name then
          if git then { r with source_ref := some version }
          else { r with version := version, source_ref := none }
        else r),
      by simp only [bump]; rw [if_pos hany]⟩
  · intro result hres
    by_cases hany : records.any (fun r => r.name = name)
    · simp only [bump, hany, if_true, Except.ok.injEq] at hres
      subst hres
      refine ⟨by simp, ?_⟩
      intro i hi hi2
      simp [List.get_eq_getElem, List.getElem_map]
    · simp [bump, hany] at hres

/-- Witness for C4: bumping `requests` in a one-record lock replaces just
its version; an absent name, including one differing only in case, fails
with `DependencyNotFound`. -/
theorem bump_spec_w :
    bump [⟨"requests", "2.25.0", none⟩] "nonexistent" "1.0" false
      = .error (.DependencyNotFound "nonexistent") ∧
    bump [⟨"requests", "2.25.0", none⟩] "Requests" "2.31.0" false
      = .error (.DependencyNotFound "Requests") ∧
    (∃ result,
      bump [⟨"requests", "2.25.0", none⟩] "requests" "2.31.0" false
        = .ok result) ∧
    ([(⟨"requests", "2.31.0", none⟩ : FrozenDependency)].length
      = [(⟨"requests", "2.25.0", none⟩ : FrozenDependency)].length) :=
  ⟨(bump_spec [⟨"requests", "2.25.0", none⟩] "nonexistent" "1.0" false).1
    (by decide),
   (bump_spec [⟨"requests", "2.25.0", none⟩] "Requests" "2.31.0" false).1
    (by decide),
   (bump_spec [⟨"requests", "2.25.0", none⟩] "requests" "2.31.0" false).2.1
    (by exact ⟨⟨"requests", "2.25.0", none⟩, by decide, by decide⟩),
   ((bump_spec [⟨"requests", "2.25.0", none⟩] "requests" "2.31.0" false).2.2
    [⟨"requests", "2.31.0", none⟩] (by rfl)).1⟩

/-- C5: `get_frozen_deps` parses every freeze line first and only then
filters, once and centrally, every record named exactly `pkg-resources`:
a parse failure anywhere is surfaced unchanged, a successful parse yields
exactly the parsed records without the `pkg-resources` ones (order
preserved), and no record of the final list is named `pkg-resources`. -/
theorem get_frozen_deps_filters (out : String) :
    (∀ all, (rustLines out).mapM FrozenDependency.from_string = .ok all →
      get_frozen_deps out
        = .ok (all.filter (fun d => d.name ≠ "pkg-resources"))) ∧
    (∀ e, (rustLines out).mapM FrozenDependency.from_string = .error e →
      get_frozen_deps out = .error e) ∧
    (∀ deps, get_frozen_deps out = .ok deps →
      ∀ d ∈ deps, d.name ≠ "pkg-resources") := by
  refine ⟨?_, ?_, ?_⟩
  · intro all h
    unfold get_frozen_deps
    rw [h]
  · intro e h
    unfold get_frozen_deps
    rw [h]
  · intro deps hdeps d hd
    unfold get_frozen_deps at hdeps
    match hall : (rustLines out).mapM FrozenDependency.from_string with
    | .error e =>
      rw [hall] at hdeps
      exact absurd hdeps (by simp)
    | .ok all =>
      rw [hall] at hdeps
      simp only [Except.ok.injEq] at hdeps
      subst hdeps
      have := List.of_mem_filter hd
      simpa using this

/-- Witness for C5: a freeze output holding `pkg-resources==0.0.0` and
`requests==2.25.0` parses into two records and yields a final list with
`pkg-resources` filtered out. -/
theorem get_frozen_deps_filters_w :
    get_frozen_deps "pkg-resources==0.0.0\nrequests==2.25.0"
      = .ok [⟨"requests", "2.25.0", none⟩] ∧
    (∀ d ∈ [(⟨"requests", "2.25.0", none⟩ : FrozenDependency)],
      d.name ≠ "pkg-resources") := by
  refine ⟨?_, ?_⟩
  · have h := (get_frozen_deps_filters
      "pkg-resources==0.0.0\nrequests==2.25.0").1
      [⟨"pkg-resources", "0.0.0", none⟩, ⟨"requests", "2.25.0", none⟩] (by rfl)
    rw [h]
    rfl
  · exact (get_frozen_deps_filters "pkg-resources==0.0.0\nrequests==2.25.0").2.2
      [⟨"requests", "2.25.0", none⟩] (by rfl)

end Dmenv
